import Mathlib

/-!
Shallow embedding of the transaction-lifecycle subsystem of forestdb
(src/transaction.cc): the data model (FdbTransaction, TxnItemList, handle,
WAL registration) and the three lifecycle entry points
`FdbEngine::beginTransaction`, `FdbEngine::endTransaction`,
`FdbEngine::abortTransaction`.

Modelling conventions:
- 64-bit machine integers become `Nat` with explicit `% 2^64` where overflow
  matters (the global transaction id counter, the `dwq_index` sentinel).
- The external collaborators observed inside the REMOVED_PENDING
  stabilization retry loop (`fdb_check_file_reopen`, `fdb_sync_db_header`,
  `FileMgr::isRollbackOn`, `FileMgr::getFileStatus`) are modelled by an
  environment trace: one `EnvStep` per loop iteration, recording what those
  calls return on that iteration while the file mutex is held.
- A loop that never stabilizes (the environment keeps reporting
  REMOVED_PENDING past the end of the supplied trace) yields `none`;
  every terminating path yields `some (status, state)`.
- The commit pipeline entered by `endTransaction` is an opaque delegate
  (`commitWithKVHandle`), exactly as in the source, where `fs =
  commitWithKVHandle(handle, opt, sync)` is the only interaction.
-/

namespace ForestDb

/-- Status codes surfaced by the subsystem (`fdb_status`).  `Err c` stands
for any other status value propagated from the file-reopen or commit
delegates. -/
inductive FdbStatus where
  | Success
  | InvalidHandle
  | HandleBusy
  | TransactionFail
  | FailByRollback
  | EngineNotInstantiated
  | Err (code : Int)
deriving DecidableEq, Repr

/-- File status as read under the file mutex (`file_status_t`):
FILE_NORMAL, FILE_REMOVED_PENDING, FILE_COMPACT_OLD. -/
inductive FileStatus where
  | Normal
  | RemovedPending
  | CompactOld
deriving DecidableEq, Repr

/-- Keyspace type of a handle (`KVS_ROOT` / `KVS_SUB`). -/
inductive KvsType where
  | Root
  | Sub
deriving DecidableEq, Repr

/-- 2^64: modulus of the 64-bit unsigned arithmetic used by the source. -/
def UINT64_MOD : Nat := 2 ^ 64

/-- `BLK_NOT_FOUND`: the "not found" block-id sentinel, `(bid_t)(-1)`. -/
def BLK_NOT_FOUND : Nat := UINT64_MOD - 1

/-- The invalid slot-index sentinel written by `resetTxnItem`:
`uint64_t(-1)`. -/
def DWQ_INVALID_INDEX : Nat := UINT64_MOD - 1

/-- A WAL write item, as far as this subsystem touches it: the slot index
(`dwq_index`) that `TxnItemList::addItem` recorded into it. -/
structure WalItem where
  dwq_index : Nat
deriving DecidableEq, Repr

/-- Modelled from the spec: `TxnItemList` itself lives outside
src/transaction.cc; per the spec it is "an ordered sequence of slots, each
holding a write-item reference (or empty/tombstoned)".  A slot is `none`
when tombstoned, `some w` when it holds a reference to write item `w`. -/
structure TxnItemList where
  items : List (Option Nat)
deriving DecidableEq, Repr

/-- `FdbTransaction` (src/transaction.cc:58-72): isolation level, the
process-unique 64-bit id, the previous-header snapshot, and the lazily
created item list (`nullptr` until first insertion ↦ `none`).  The spin
lock and the raw handle/wrapper back pointers are concurrency/identity
plumbing with no data content. -/
structure FdbTransaction where
  isolation : Nat
  txn_id : Nat
  prev_hdr_bid : Nat
  prev_revnum : Nat
  txn_items : Option TxnItemList
deriving DecidableEq, Repr

/-- The root KVS handle state the three lifecycle functions read and write:
the transaction slot `txn`, the keyspace descriptor `kvs` (`none` when the
handle has no KVS info attached), the header snapshot fields kept in sync
by `fdb_sync_db_header`, the durability configuration bit
(`FDB_DRB_ASYNC`), and the busy-guard flag (`BEGIN_HANDLE_BUSY` /
`END_HANDLE_BUSY`, modelled from the spec's per-handle busy-guard
acquire/release contract: acquire fails iff the flag is already set). -/
structure FdbKvsHandle where
  txn : Option FdbTransaction
  kvs : Option KvsType
  last_hdr_bid : Nat
  cur_header_revnum : Nat
  durability_async : Bool
  busy : Bool
deriving DecidableEq, Repr

/-- The WAL collaborator's bookkeeping as consumed here (narrow contract):
the list of registered transaction ids (`addTransaction_Wal` /
`removeTransaction_Wal`) and the uncommitted entries, each tagged with its
owning transaction id (`discardTxnEntries_Wal`). -/
structure Wal where
  txns : List Nat
  entries : List (Nat × Nat)
deriving DecidableEq, Repr

/-- Per-file state visible to one lifecycle call: the root handle and the
file's WAL. -/
structure FileState where
  handle : FdbKvsHandle
  wal : Wal
deriving DecidableEq, Repr

/-- One iteration of the REMOVED_PENDING stabilization retry loop, as seen
from this subsystem: what `fdb_check_file_reopen` returns, the header
snapshot `fdb_sync_db_header` installs into the handle, and what
`isRollbackOn` / `getFileStatus` report under the file mutex. -/
structure EnvStep where
  reopenStatus : FdbStatus
  syncedHdrBid : Nat
  syncedRevnum : Nat
  rollbackOn : Bool
  fileStatus : FileStatus
deriving DecidableEq, Repr

/-- `FdbTransaction::getItemCount` (src/transaction.cc:81-89): 0 when the
item list was never created, otherwise the list's count (modelled from the
spec as the raw slot-container length). -/
def FdbTransaction.getItemCount (t : FdbTransaction) : Nat :=
  match t.txn_items with
  | none => 0
  | some l => l.items.length

/-- `FdbTransaction::resetTxnItem` (src/transaction.cc:106-111):
`txn_items->items.at(item->dwq_index) = nullptr; item->dwq_index = -1`.
The source dereferences `txn_items` without a null check and uses
`std::vector::at`, which throws `std::out_of_range` on a bad index; both
faults are modelled as `none` (the call does not terminate normally).
Normal termination yields the updated transaction and item. -/
def FdbTransaction.resetTxnItem (t : FdbTransaction) (item : WalItem) :
    Option (FdbTransaction × WalItem) :=
  match t.txn_items with
  | none => none
  | some l =>
    if item.dwq_index < l.items.length then
      some ({ t with txn_items := some ⟨l.items.set item.dwq_index none⟩ },
            { item with dwq_index := DWQ_INVALID_INDEX })
    else none

/-- `Wal::discardTxnEntries_Wal`: drop every WAL entry owned by the given
transaction id. -/
def Wal.discardTxnEntries (w : Wal) (tid : Nat) : Wal :=
  { w with entries := w.entries.filter (fun p => p.1 != tid) }

/-- `Wal::removeTransaction_Wal`: deregister the transaction id. -/
def Wal.removeTransaction (w : Wal) (tid : Nat) : Wal :=
  { w with txns := w.txns.filter (fun i => i != tid) }

/-- `Wal::addTransaction_Wal`: register the transaction id. -/
def Wal.addTransaction (w : Wal) (tid : Nat) : Wal :=
  { w with txns := w.txns ++ [tid] }

/-- `fdb_sync_db_header`: install the shared header snapshot of the current
loop iteration into the handle. -/
def syncDbHeader (h : FdbKvsHandle) (e : EnvStep) : FdbKvsHandle :=
  { h with last_hdr_bid := e.syncedHdrBid, cur_header_revnum := e.syncedRevnum }

/-- The `handle->kvs && handle->kvs->getKvsType() == KVS_SUB` test shared
by all three lifecycle functions. -/
def FdbKvsHandle.isSubHandle (h : FdbKvsHandle) : Bool :=
  match h.kvs with
  | some KvsType.Sub => true
  | _ => false

/-- Outcome of a stabilization retry loop: an early error return carrying a
status, or stabilization at the environment step whose file status was not
REMOVED_PENDING. -/
inductive LoopExit where
  | err (s : FdbStatus)
  | stable (e : EnvStep)
deriving DecidableEq, Repr

/-- The stabilization loop of `beginTransaction`
(src/transaction.cc:220-244): reopen check, header sync, rollback check,
retry while FILE_REMOVED_PENDING.  Returns the loop exit together with the
handle as mutated by the header syncs; `none` when the trace is exhausted
while still retrying (the loop is still spinning). -/
def beginLoop (h : FdbKvsHandle) : List EnvStep → Option (LoopExit × FdbKvsHandle)
  | [] => none
  | e :: rest =>
    if e.reopenStatus ≠ FdbStatus.Success then
      some (LoopExit.err e.reopenStatus, h)
    else
      let h1 := syncDbHeader h e
      if e.rollbackOn then some (LoopExit.err FdbStatus.FailByRollback, h1)
      else if e.fileStatus = FileStatus.RemovedPending then beginLoop h1 rest
      else some (LoopExit.stable e, h1)

/-- The stabilization loop shared by `abortTransaction`
(src/transaction.cc:150-167) and `endTransaction`
(src/transaction.cc:299-315): identical to `beginLoop` except that it has
no rollback check. -/
def stabilizeLoop (h : FdbKvsHandle) : List EnvStep → Option (LoopExit × FdbKvsHandle)
  | [] => none
  | e :: rest =>
    if e.reopenStatus ≠ FdbStatus.Success then
      some (LoopExit.err e.reopenStatus, h)
    else
      let h1 := syncDbHeader h e
      if e.fileStatus = FileStatus.RemovedPending then stabilizeLoop h1 rest
      else some (LoopExit.stable e, h1)

/-- `FdbEngine::beginTransaction` (src/transaction.cc:193-267) on a valid
file handle with a root handle.  `tid` is the value of the process-global
`transaction_id` counter (kept as the exact count of ids ever assigned; the
stored 64-bit id is `tid % 2^64`).  Returns the status, the new file state
and the new counter value. -/
def beginTransaction (tid : Nat) (st : FileState) (isolation_level : Nat)
    (env : List EnvStep) : Option (FdbStatus × FileState × Nat) :=
  let handle := st.handle
  if handle.txn.isSome then
    some (FdbStatus.TransactionFail, st, tid)
  else if handle.isSubHandle then
    some (FdbStatus.InvalidHandle, st, tid)
  else if handle.busy then
    some (FdbStatus.HandleBusy, st, tid)
  else
    match beginLoop handle env with
    | none => none
    | some (LoopExit.err s, h1) => some (s, { st with handle := h1 }, tid)
    | some (LoopExit.stable e, h1) =>
      let txn_hdr_bid :=
        if e.fileStatus ≠ FileStatus.CompactOld then h1.last_hdr_bid
        else BLK_NOT_FOUND
      let txn : FdbTransaction :=
        { isolation := isolation_level
          txn_id := tid % UINT64_MOD
          prev_hdr_bid := txn_hdr_bid
          prev_revnum := h1.cur_header_revnum
          txn_items := none }
      some (FdbStatus.Success,
            { handle := { h1 with txn := some txn }
              wal := st.wal.addTransaction txn.txn_id },
            tid + 1)

/-- `FdbEngine::abortTransaction` (src/transaction.cc:124-180) on a valid
file handle with a root handle. -/
def abortTransaction (st : FileState) (env : List EnvStep) :
    Option (FdbStatus × FileState) :=
  let handle := st.handle
  match handle.txn with
  | none => some (FdbStatus.TransactionFail, st)
  | some txn =>
    if handle.isSubHandle then
      some (FdbStatus.InvalidHandle, st)
    else if handle.busy then
      some (FdbStatus.HandleBusy, st)
    else
      match stabilizeLoop handle env with
      | none => none
      | some (LoopExit.err s, h1) => some (s, { st with handle := h1 })
      | some (LoopExit.stable _, h1) =>
        let w1 := st.wal.discardTxnEntries txn.txn_id
        let w2 := w1.removeTransaction txn.txn_id
        some (FdbStatus.Success, { handle := { h1 with txn := none }, wal := w2 })

/-- `FdbEngine::endTransaction` (src/transaction.cc:269-326) on a valid
file handle with a root handle.  `commitDelegate` is the opaque
`commitWithKVHandle(handle, opt, sync)` pipeline, invoked with the commit
option and the synchronous-durability flag `!(durability_opt &
FDB_DRB_ASYNC)`.  Note: unlike begin/abort, the source never calls
`BEGIN_HANDLE_BUSY`/`END_HANDLE_BUSY` here, so the busy flag is neither
read nor written. -/
def endTransaction (st : FileState) (opt : Nat)
    (commitDelegate : Nat → Bool → FdbStatus) (env : List EnvStep) :
    Option (FdbStatus × FileState) :=
  let handle := st.handle
  match handle.txn with
  | none => some (FdbStatus.TransactionFail, st)
  | some txn =>
    if handle.isSubHandle then
      some (FdbStatus.InvalidHandle, st)
    else
      let sync := !handle.durability_async
      let fs :=
        if txn.getItemCount ≠ 0 then commitDelegate opt sync
        else FdbStatus.Success
      if fs = FdbStatus.Success then
        match stabilizeLoop handle env with
        | none => none
        | some (LoopExit.err s, h1) => some (s, { st with handle := h1 })
        | some (LoopExit.stable _, h1) =>
          let w1 := st.wal.removeTransaction txn.txn_id
          some (FdbStatus.Success, { handle := { h1 with txn := none }, wal := w1 })
      else
        some (fs, st)

/-! Sample states used by witnesses and counterexamples. -/

/-- A transaction holding one pending write item. -/
def txnOneItem : FdbTransaction :=
  { isolation := 0, txn_id := 7, prev_hdr_bid := 10, prev_revnum := 3
    txn_items := some ⟨[some 1]⟩ }

/-- A transaction whose item list was never created. -/
def txnNoItems : FdbTransaction :=
  { isolation := 0, txn_id := 7, prev_hdr_bid := 10, prev_revnum := 3
    txn_items := none }

/-- A root handle with an active one-item transaction. -/
def handleActive : FdbKvsHandle :=
  { txn := some txnOneItem, kvs := some KvsType.Root, last_hdr_bid := 10
    cur_header_revnum := 3, durability_async := false, busy := false }

/-- A root handle with no active transaction. -/
def handleIdle : FdbKvsHandle :=
  { txn := none, kvs := some KvsType.Root, last_hdr_bid := 10
    cur_header_revnum := 3, durability_async := false, busy := false }

/-- File state: active transaction registered in the WAL with one entry. -/
def stActive : FileState :=
  { handle := handleActive, wal := { txns := [7], entries := [(7, 42)] } }

/-- File state: no active transaction. -/
def stIdle : FileState :=
  { handle := handleIdle, wal := { txns := [], entries := [] } }

/-- A quiescent environment step: reopen succeeds, no rollback, FILE_NORMAL. -/
def envNormal : EnvStep :=
  { reopenStatus := FdbStatus.Success, syncedHdrBid := 11, syncedRevnum := 4
    rollbackOn := false, fileStatus := FileStatus.Normal }

/-! Helper lemmas about the stabilization loops. -/

/-- Header sync touches only the header snapshot fields. -/
theorem syncDbHeader_fields (h : FdbKvsHandle) (e : EnvStep) :
    (syncDbHeader h e).txn = h.txn ∧ (syncDbHeader h e).busy = h.busy ∧
    (syncDbHeader h e).kvs = h.kvs ∧
    (syncDbHeader h e).durability_async = h.durability_async :=
  ⟨rfl, rfl, rfl, rfl⟩

/-- The abort/end stabilization loop never changes the transaction slot,
the busy flag, the kvs descriptor or the durability configuration. -/
theorem stabilizeLoop_preserves (env : List EnvStep) (h h1 : FdbKvsHandle)
    (r : LoopExit) (heq : stabilizeLoop h env = some (r, h1)) :
    h1.txn = h.txn ∧ h1.busy = h.busy ∧ h1.kvs = h.kvs ∧
    h1.durability_async = h.durability_async := by
  induction env generalizing h with
  | nil => simp [stabilizeLoop] at heq
  | cons e rest ih =>
    simp only [stabilizeLoop] at heq
    split at heq
    · simp only [Option.some.injEq, Prod.mk.injEq] at heq
      rw [← heq.2]
      exact ⟨rfl, rfl, rfl, rfl⟩
    · split at heq
      · exact ih (syncDbHeader h e) heq
      · simp only [Option.some.injEq, Prod.mk.injEq] at heq
        rw [← heq.2]
        exact ⟨rfl, rfl, rfl, rfl⟩

/-- The begin stabilization loop never changes the transaction slot, the
busy flag, the kvs descriptor or the durability configuration. -/
theorem beginLoop_preserves (env : List EnvStep) (h h1 : FdbKvsHandle)
    (r : LoopExit) (heq : beginLoop h env = some (r, h1)) :
    h1.txn = h.txn ∧ h1.busy = h.busy ∧ h1.kvs = h.kvs ∧
    h1.durability_async = h.durability_async := by
  induction env generalizing h with
  | nil => simp [beginLoop] at heq
  | cons e rest ih =>
    simp only [beginLoop] at heq
    split at heq
    · simp only [Option.some.injEq, Prod.mk.injEq] at heq
      rw [← heq.2]
      exact ⟨rfl, rfl, rfl, rfl⟩
    · split at heq
      · simp only [Option.some.injEq, Prod.mk.injEq] at heq
        rw [← heq.2]
        exact ⟨rfl, rfl, rfl, rfl⟩
      · split at heq
        · exact ih (syncDbHeader h e) heq
        · simp only [Option.some.injEq, Prod.mk.injEq] at heq
          rw [← heq.2]
          exact ⟨rfl, rfl, rfl, rfl⟩

/-- An error exit of the abort/end stabilization loop carries the reopen
status of one of the environment steps. -/
theorem stabilizeLoop_err_mem (env : List EnvStep) (h h1 : FdbKvsHandle)
    (s : FdbStatus) (heq : stabilizeLoop h env = some (LoopExit.err s, h1)) :
    ∃ x ∈ env, s = x.reopenStatus ∧ x.reopenStatus ≠ FdbStatus.Success := by
  induction env generalizing h with
  | nil => simp [stabilizeLoop] at heq
  | cons e rest ih =>
    simp only [stabilizeLoop] at heq
    split at heq
    · rename_i hre
      simp only [Option.some.injEq, Prod.mk.injEq, LoopExit.err.injEq] at heq
      exact ⟨e, List.mem_cons_self e rest, heq.1.symm, hre⟩
    · split at heq
      · obtain ⟨x, hx, hs⟩ := ih (syncDbHeader h e) heq
        exact ⟨x, List.mem_cons_of_mem e hx, hs⟩
      · simp at heq

/-- Claim C1: in `endTransaction`, when the active transaction's item count
is nonzero and the commit delegate returns a non-Success status, that exact
status is returned and the entire file state — the transaction slot, its
item list, and the WAL registration — is unchanged. -/
theorem end_commit_failure_leaves_txn_intact (st : FileState) (opt : Nat)
    (commitDelegate : Nat → Bool → FdbStatus) (env : List EnvStep)
    (txn : FdbTransaction) (ht : st.handle.txn = some txn)
    (hsub : st.handle.isSubHandle = false)
    (hcount : txn.getItemCount ≠ 0)
    (hfail : commitDelegate opt (!st.handle.durability_async) ≠ FdbStatus.Success) :
    endTransaction st opt commitDelegate env =
      some (commitDelegate opt (!st.handle.durability_async), st) := by
  simp [endTransaction, ht, hsub, hcount, hfail]

/-- Witness for C1: a concrete one-item transaction, a commit delegate
failing with `Err 5`; `endTransaction` returns `Err 5` and the state is
untouched. -/
theorem end_commit_failure_leaves_txn_intact_witness :
    endTransaction stActive 0 (fun _ _ => FdbStatus.Err 5) [envNormal] =
      some (FdbStatus.Err 5, stActive) :=
  end_commit_failure_leaves_txn_intact stActive 0 (fun _ _ => FdbStatus.Err 5)
    [envNormal] txnOneItem (by decide) (by decide) (by decide) (by decide)

/-- Claim C3: `beginTransaction` on a handle whose transaction slot is
occupied returns `TransactionFail` and changes nothing; `abortTransaction`
and `endTransaction` on a handle with an empty transaction slot return
`TransactionFail` and change nothing. -/
theorem precondition_transaction_fail :
    (∀ tid st iso env, (st : FileState).handle.txn.isSome →
      beginTransaction tid st iso env = some (FdbStatus.TransactionFail, st, tid)) ∧
    (∀ st env, (st : FileState).handle.txn = none →
      abortTransaction st env = some (FdbStatus.TransactionFail, st)) ∧
    (∀ st opt d env, (st : FileState).handle.txn = none →
      endTransaction st opt d env = some (FdbStatus.TransactionFail, st)) := by
  refine ⟨fun tid st iso env h => ?_, fun st env h => ?_, fun st opt d env h => ?_⟩
  · simp [beginTransaction, h]
  · simp [abortTransaction, h]
  · simp [endTransaction, h]

/-- Witness for C3: concrete states — an occupied slot rejects `begin`, an
empty slot rejects `abort` and `end`, all with `TransactionFail` and no
state change. -/
theorem precondition_transaction_fail_witness :
    beginTransaction 3 stActive 0 [envNormal] =
      some (FdbStatus.TransactionFail, stActive, 3) ∧
    abortTransaction stIdle [envNormal] = some (FdbStatus.TransactionFail, stIdle) ∧
    endTransaction stIdle 0 (fun _ _ => FdbStatus.Success) [envNormal] =
      some (FdbStatus.TransactionFail, stIdle) :=
  ⟨precondition_transaction_fail.1 3 stActive 0 [envNormal] (by decide),
   precondition_transaction_fail.2.1 stIdle [envNormal] (by decide),
   precondition_transaction_fail.2.2 stIdle 0 (fun _ _ => FdbStatus.Success)
     [envNormal] (by decide)⟩

/-- A sub-keyspace handle with no active transaction. -/
def handleSubIdle : FdbKvsHandle :=
  { txn := none, kvs := some KvsType.Sub, last_hdr_bid := 10
    cur_header_revnum := 3, durability_async := false, busy := false }

/-- A sub-keyspace handle with an active transaction. -/
def handleSubActive : FdbKvsHandle :=
  { txn := some txnOneItem, kvs := some KvsType.Sub, last_hdr_bid := 10
    cur_header_revnum := 3, durability_async := false, busy := false }

/-- File state around `handleSubIdle`. -/
def stSubIdle : FileState :=
  { handle := handleSubIdle, wal := { txns := [], entries := [] } }

/-- File state around `handleSubActive`. -/
def stSubActive : FileState :=
  { handle := handleSubActive, wal := { txns := [7], entries := [(7, 42)] } }

/-- Counterexample to C4: on a sub-keyspace handle with no active
transaction, `abortTransaction` returns `TransactionFail`, not
`InvalidHandle` — the transaction-slot check precedes the sub-handle
check. -/
theorem sub_handle_not_always_invalid_cex :
    abortTransaction stSubIdle [envNormal] =
      some (FdbStatus.TransactionFail, stSubIdle) ∧
    FdbStatus.TransactionFail ≠ FdbStatus.InvalidHandle := by
  exact ⟨by decide, by decide⟩

/-- Claim C4 (amended): on a sub-keyspace handle the transaction-slot
precondition is checked first.  `begin` returns `InvalidHandle` when no
transaction is active and `TransactionFail` when one is; `abort` and `end`
return `InvalidHandle` when a transaction is active and `TransactionFail`
when none is.  In every case the state is unchanged. -/
theorem sub_handle_lifecycle_behavior :
    (∀ tid st iso env, (st : FileState).handle.isSubHandle = true →
      st.handle.txn = none →
      beginTransaction tid st iso env = some (FdbStatus.InvalidHandle, st, tid)) ∧
    (∀ st env, (st : FileState).handle.isSubHandle = true →
      (st.handle.txn).isSome →
      abortTransaction st env = some (FdbStatus.InvalidHandle, st)) ∧
    (∀ st opt d env, (st : FileState).handle.isSubHandle = true →
      (st.handle.txn).isSome →
      endTransaction st opt d env = some (FdbStatus.InvalidHandle, st)) ∧
    (∀ tid st iso env, (st : FileState).handle.isSubHandle = true →
      (st.handle.txn).isSome →
      beginTransaction tid st iso env = some (FdbStatus.TransactionFail, st, tid)) ∧
    (∀ st env, (st : FileState).handle.isSubHandle = true →
      st.handle.txn = none →
      abortTransaction st env = some (FdbStatus.TransactionFail, st)) ∧
    (∀ st opt d env, (st : FileState).handle.isSubHandle = true →
      st.handle.txn = none →
      endTransaction st opt d env = some (FdbStatus.TransactionFail, st)) := by
  refine ⟨fun tid st iso env hs h => ?_, fun st env hs h => ?_,
    fun st opt d env hs h => ?_, fun tid st iso env hs h => ?_,
    fun st env hs h => ?_, fun st opt d env hs h => ?_⟩
  · simp [beginTransaction, h, hs]
  · obtain ⟨txn, h⟩ := Option.isSome_iff_exists.mp h
    simp [abortTransaction, h, hs]
  · obtain ⟨txn, h⟩ := Option.isSome_iff_exists.mp h
    simp [endTransaction, h, hs]
  · simp [beginTransaction, h]
  · simp [abortTransaction, h]
  · simp [endTransaction, h]

/-- Witness for the amended C4, at the concrete sub-handle states. -/
theorem sub_handle_lifecycle_behavior_witness :
    beginTransaction 3 stSubIdle 0 [envNormal] =
      some (FdbStatus.InvalidHandle, stSubIdle, 3) ∧
    abortTransaction stSubActive [envNormal] =
      some (FdbStatus.InvalidHandle, stSubActive) ∧
    endTransaction stSubActive 0 (fun _ _ => FdbStatus.Success) [envNormal] =
      some (FdbStatus.InvalidHandle, stSubActive) ∧
    beginTransaction 3 stSubActive 0 [envNormal] =
      some (FdbStatus.TransactionFail, stSubActive, 3) ∧
    endTransaction stSubIdle 0 (fun _ _ => FdbStatus.Success) [envNormal] =
      some (FdbStatus.TransactionFail, stSubIdle) :=
  ⟨sub_handle_lifecycle_behavior.1 3 stSubIdle 0 [envNormal] (by decide) (by decide),
   sub_handle_lifecycle_behavior.2.1 stSubActive [envNormal] (by decide) (by decide),
   sub_handle_lifecycle_behavior.2.2.1 stSubActive 0 (fun _ _ => FdbStatus.Success)
     [envNormal] (by decide) (by decide),
   sub_handle_lifecycle_behavior.2.2.2.1 3 stSubActive 0 [envNormal]
     (by decide) (by decide),
   sub_handle_lifecycle_behavior.2.2.2.2.2 stSubIdle 0
     (fun _ _ => FdbStatus.Success) [envNormal] (by decide) (by decide)⟩

/-- Counterexample to C9: `resetTxnItem` does not terminate normally on
every input.  With an absent item list it dereferences a null pointer, and
with a recorded slot index past the end of the list `std::vector::at`
throws `std::out_of_range`; both are modelled as `none`. -/
theorem resetTxnItem_faults_cex :
    txnNoItems.resetTxnItem ⟨0⟩ = none ∧
    txnOneItem.resetTxnItem ⟨5⟩ = none := by
  exact ⟨by decide, by decide⟩

/-- Claim C9 (amended): `resetTxnItem` terminates normally exactly when the
item list exists and the item's recorded slot index is in range; it then
nulls that slot and invalidates the index with the sentinel.  With an
absent list or an out-of-range index the call faults (null dereference
resp. `std::out_of_range`) instead of returning. -/
theorem resetTxnItem_normal_iff_in_range (t : FdbTransaction) (item : WalItem) :
    (∀ l, t.txn_items = some l → item.dwq_index < l.items.length →
      t.resetTxnItem item =
        some ({ t with txn_items := some ⟨l.items.set item.dwq_index none⟩ },
              { item with dwq_index := DWQ_INVALID_INDEX })) ∧
    (t.txn_items = none → t.resetTxnItem item = none) ∧
    (∀ l, t.txn_items = some l → l.items.length ≤ item.dwq_index →
      t.resetTxnItem item = none) := by
  refine ⟨fun l hl hlt => ?_, fun hn => ?_, fun l hl hle => ?_⟩
  · simp [FdbTransaction.resetTxnItem, hl, hlt]
  · simp [FdbTransaction.resetTxnItem, hn]
  · simp [FdbTransaction.resetTxnItem, hl, Nat.not_lt.mpr hle]

/-- Witness for the amended C9: resetting the single item of a concrete
one-item transaction nulls slot 0 and writes the invalid-index sentinel. -/
theorem resetTxnItem_normal_iff_in_range_witness :
    txnOneItem.resetTxnItem ⟨0⟩ =
      some ({ txnOneItem with txn_items := some ⟨[none]⟩ },
            ⟨DWQ_INVALID_INDEX⟩) :=
  (resetTxnItem_normal_iff_in_range txnOneItem ⟨0⟩).1 ⟨[some 1]⟩
    (by decide) (by decide)

/-- An environment step whose file-reopen resolution fails with `Err 9`. -/
def envReopenFail : EnvStep :=
  { reopenStatus := FdbStatus.Err 9, syncedHdrBid := 11, syncedRevnum := 4
    rollbackOn := false, fileStatus := FileStatus.Normal }

/-- Claim C10: when the commit delegate succeeds on a nonzero-item
transaction but the file-reopen resolution step of `endTransaction`'s
stabilization loop fails, `endTransaction` returns that (non-Success)
status while the handle still holds the transaction and the WAL state —
including the transaction's registration — is untouched, even though the
writes were already committed. -/
theorem end_reopen_failure_after_commit (st : FileState) (opt : Nat)
    (commitDelegate : Nat → Bool → FdbStatus) (env : List EnvStep)
    (txn : FdbTransaction) (h1 : FdbKvsHandle) (s : FdbStatus)
    (ht : st.handle.txn = some txn) (hsub : st.handle.isSubHandle = false)
    (hcount : txn.getItemCount ≠ 0)
    (hcommit : commitDelegate opt (!st.handle.durability_async) = FdbStatus.Success)
    (hloop : stabilizeLoop st.handle env = some (LoopExit.err s, h1)) :
    endTransaction st opt commitDelegate env = some (s, { st with handle := h1 }) ∧
    s ≠ FdbStatus.Success ∧ h1.txn = some txn ∧
    ({ st with handle := h1 } : FileState).wal = st.wal := by
  refine ⟨?_, ?_, ?_, rfl⟩
  · simp [endTransaction, ht, hsub, hcount, hcommit, hloop]
  · obtain ⟨x, hx, hs, hne⟩ := stabilizeLoop_err_mem env st.handle h1 s hloop
    exact hs ▸ hne
  · rw [(stabilizeLoop_preserves env st.handle h1 _ hloop).1, ht]

/-- Witness for C10: commit succeeds, the reopen step fails with `Err 9`;
`endTransaction` returns `Err 9` and the transaction is still in place and
still WAL-registered. -/
theorem end_reopen_failure_after_commit_witness :
    endTransaction stActive 0 (fun _ _ => FdbStatus.Success) [envReopenFail] =
      some (FdbStatus.Err 9, stActive) ∧
    stActive.handle.txn = some txnOneItem ∧ stActive.wal.txns = [7] :=
  ⟨by
    have h := end_reopen_failure_after_commit stActive 0
      (fun _ _ => FdbStatus.Success) [envReopenFail] txnOneItem
      stActive.handle (FdbStatus.Err 9) (by decide) (by decide) (by decide)
      (by decide) (by decide)
    exact h.1,
   by decide, by decide⟩

/-- Overwrite the busy-guard flag of a file state's handle. -/
def setBusy (st : FileState) (b : Bool) : FileState :=
  { st with handle := { st.handle with busy := b } }

/-- A root handle whose busy guard is held by another operation, with an
active zero-item transaction. -/
def stBusyActive : FileState :=
  { handle := { txn := some txnNoItems, kvs := some KvsType.Root
                last_hdr_bid := 10, cur_header_revnum := 3
                durability_async := false, busy := true }
    wal := { txns := [7], entries := [] } }

/-- The abort/end stabilization loop neither reads nor keeps the busy flag:
running it on a handle with the flag overwritten gives the same result with
the flag overwritten. -/
theorem stabilizeLoop_busy_comm (env : List EnvStep) (h : FdbKvsHandle) (b : Bool) :
    stabilizeLoop { h with busy := b } env =
      (stabilizeLoop h env).map (fun r => (r.1, { r.2 with busy := b })) := by
  induction env generalizing h with
  | nil => simp [stabilizeLoop]
  | cons e rest ih =>
    by_cases hre : e.reopenStatus = FdbStatus.Success
    · by_cases hfs : e.fileStatus = FileStatus.RemovedPending
      · simpa [stabilizeLoop, hre, hfs, syncDbHeader] using
          ih { h with last_hdr_bid := e.syncedHdrBid
                      cur_header_revnum := e.syncedRevnum }
      · simp [stabilizeLoop, hre, hfs, syncDbHeader]
    · simp [stabilizeLoop, hre]

/-- Counterexample to C2: with the busy guard already held
(`busy = true`), `endTransaction` still proceeds and clears the
transaction slot — it never acquires the guard — while `abortTransaction`
and `beginTransaction` on the same held-guard handle are rejected with
`HandleBusy`. -/
theorem end_runs_without_busy_guard_cex :
    stBusyActive.handle.busy = true ∧
    (endTransaction stBusyActive 0 (fun _ _ => FdbStatus.Success)
        [envNormal]).map (fun r => (r.1, r.2.handle.txn)) =
      some (FdbStatus.Success, none) ∧
    abortTransaction stBusyActive [envNormal] =
      some (FdbStatus.HandleBusy, stBusyActive) := by
  exact ⟨by decide, by decide, by decide⟩

/-- Claim C2 (amended): `beginTransaction` and `abortTransaction` acquire
the handle busy guard before touching the transaction slot — a held guard
rejects them with `HandleBusy` and no state change — and they restore the
guard flag on every exit path.  `endTransaction`, however, performs no
guard acquisition or release at all: its result neither reads nor writes
the busy flag. -/
theorem busy_guard_begin_abort_only :
    (∀ tid st iso env, (st : FileState).handle.txn = none →
      st.handle.isSubHandle = false → st.handle.busy = true →
      beginTransaction tid st iso env = some (FdbStatus.HandleBusy, st, tid)) ∧
    (∀ st env txn, (st : FileState).handle.txn = some txn →
      st.handle.isSubHandle = false → st.handle.busy = true →
      abortTransaction st env = some (FdbStatus.HandleBusy, st)) ∧
    (∀ tid st iso env s st2 tid2,
      beginTransaction tid st iso env = some (s, st2, tid2) →
      (st2 : FileState).handle.busy = (st : FileState).handle.busy) ∧
    (∀ st env s st2, abortTransaction st env = some (s, st2) →
      (st2 : FileState).handle.busy = (st : FileState).handle.busy) ∧
    (∀ st opt d env b, endTransaction (setBusy st b) opt d env =
      (endTransaction st opt d env).map (fun r => (r.1, setBusy r.2 b))) := by
  refine ⟨fun tid st iso env ht hs hb => ?_, fun st env txn ht hs hb => ?_,
    fun tid st iso env s st2 tid2 heq => ?_, fun st env s st2 heq => ?_,
    fun st opt d env b => ?_⟩
  · simp [beginTransaction, ht, hs, hb]
  · simp [abortTransaction, ht, hs, hb]
  · simp only [beginTransaction] at heq
    split at heq
    · simp only [Option.some.injEq, Prod.mk.injEq] at heq
      rw [← heq.2.1]
    · split at heq
      · simp only [Option.some.injEq, Prod.mk.injEq] at heq
        rw [← heq.2.1]
      · split at heq
        · simp only [Option.some.injEq, Prod.mk.injEq] at heq
          rw [← heq.2.1]
        · split at heq
          · exact absurd heq (by simp)
          · rename_i h1 hloop
            simp only [Option.some.injEq, Prod.mk.injEq] at heq
            rw [← heq.2.1]
            exact (beginLoop_preserves env st.handle _ _ hloop).2.1
          · rename_i e h1 hloop
            simp only [Option.some.injEq, Prod.mk.injEq] at heq
            rw [← heq.2.1]
            exact (beginLoop_preserves env st.handle _ _ hloop).2.1
  · simp only [abortTransaction] at heq
    split at heq
    · simp only [Option.some.injEq, Prod.mk.injEq] at heq
      rw [← heq.2]
    · rename_i txn htxn
      split at heq
      · simp only [Option.some.injEq, Prod.mk.injEq] at heq
        rw [← heq.2]
      · split at heq
        · simp only [Option.some.injEq, Prod.mk.injEq] at heq
          rw [← heq.2]
        · split at heq
          · exact absurd heq (by simp)
          · rename_i h1 hloop
            simp only [Option.some.injEq, Prod.mk.injEq] at heq
            rw [← heq.2]
            exact (stabilizeLoop_preserves env st.handle _ _ hloop).2.1
          · rename_i e h1 hloop
            simp only [Option.some.injEq, Prod.mk.injEq] at heq
            rw [← heq.2]
            exact (stabilizeLoop_preserves env st.handle _ _ hloop).2.1
  · obtain ⟨⟨tx, kv, lb, cr, da, bu⟩, wl⟩ := st
    cases tx with
    | none => simp [endTransaction, setBusy]
    | some txn =>
      by_cases hsub :
          FdbKvsHandle.isSubHandle ⟨some txn, kv, lb, cr, da, bu⟩ = true
      · have hsub2 :
            FdbKvsHandle.isSubHandle ⟨some txn, kv, lb, cr, da, b⟩ = true := hsub
        simp [endTransaction, setBusy, hsub, hsub2]
      · rw [Bool.not_eq_true] at hsub
        have hsub2 :
            FdbKvsHandle.isSubHandle ⟨some txn, kv, lb, cr, da, b⟩ = false := hsub
        by_cases hfs : (if txn.getItemCount ≠ 0 then d opt (!da)
            else FdbStatus.Success) = FdbStatus.Success
        · simp only [endTransaction, setBusy, hsub, hsub2, hfs,
            Bool.false_eq_true, if_false, if_true]
          rw [show stabilizeLoop (⟨some txn, kv, lb, cr, da, b⟩ : FdbKvsHandle) env =
              (stabilizeLoop (⟨some txn, kv, lb, cr, da, bu⟩ : FdbKvsHandle) env).map
                (fun r => (r.1, { r.2 with busy := b })) from
            stabilizeLoop_busy_comm env ⟨some txn, kv, lb, cr, da, bu⟩ b]
          cases hloop :
              stabilizeLoop (⟨some txn, kv, lb, cr, da, bu⟩ : FdbKvsHandle) env with
          | none => simp
          | some r =>
            cases r with
            | mk ex h1 =>
              cases ex with
              | err s => simp
              | stable e => simp
        · simp only [endTransaction, setBusy, hsub, hsub2,
            Bool.false_eq_true, if_false]
          rw [if_neg hfs, if_neg hfs]
          simp

/-- Witness for the amended C2: concrete held-guard states reject `begin`
and `abort` with `HandleBusy`; a concrete `end` run commutes with
overwriting the busy flag. -/
theorem busy_guard_begin_abort_only_witness :
    beginTransaction 3 (setBusy stIdle true) 0 [envNormal] =
      some (FdbStatus.HandleBusy, setBusy stIdle true, 3) ∧
    abortTransaction stBusyActive [envNormal] =
      some (FdbStatus.HandleBusy, stBusyActive) ∧
    endTransaction (setBusy stActive true) 0 (fun _ _ => FdbStatus.Success)
        [envNormal] =
      (endTransaction stActive 0 (fun _ _ => FdbStatus.Success)
        [envNormal]).map (fun r => (r.1, setBusy r.2 true)) :=
  ⟨busy_guard_begin_abort_only.1 3 (setBusy stIdle true) 0 [envNormal]
     (by decide) (by decide) (by decide),
   busy_guard_begin_abort_only.2.1 stBusyActive [envNormal] txnNoItems
     (by decide) (by decide) (by decide),
   busy_guard_begin_abort_only.2.2.2.2 stActive 0 (fun _ _ => FdbStatus.Success)
     [envNormal] true⟩

/-- Claim C6: on a successful `beginTransaction`, the constructed
transaction snapshots the (just synchronized) handle header — `prev_hdr_bid`
is the handle's last header block id unless the stabilized file status is
`CompactOld`, in which case it is `BLK_NOT_FOUND`; `prev_revnum` is the
handle's current header revision — and the transaction id is registered
with the WAL exactly once. -/
theorem begin_success_snapshot (tid : Nat) (st : FileState) (iso : Nat)
    (env : List EnvStep) (e : EnvStep) (h1 : FdbKvsHandle)
    (ht : st.handle.txn = none) (hsub : st.handle.isSubHandle = false)
    (hb : st.handle.busy = false)
    (hloop : beginLoop st.handle env = some (LoopExit.stable e, h1)) :
    beginTransaction tid st iso env =
      some (FdbStatus.Success,
        { handle := { h1 with txn := some ⟨iso, tid % UINT64_MOD,
            (if e.fileStatus ≠ FileStatus.CompactOld then h1.last_hdr_bid
             else BLK_NOT_FOUND), h1.cur_header_revnum, none⟩ }
          wal := st.wal.addTransaction (tid % UINT64_MOD) },
        tid + 1) ∧
    (st.wal.addTransaction (tid % UINT64_MOD)).txns.count (tid % UINT64_MOD) =
      st.wal.txns.count (tid % UINT64_MOD) + 1 := by
  constructor
  · simp [beginTransaction, ht, hsub, hb, hloop]
  · simp [Wal.addTransaction]

/-- Witness for C6: a concrete successful begin from the idle root handle;
the new transaction carries header bid 11 and revision 4 as synchronized
by the stabilization step, and id 0 is appended to the WAL's transaction
list. -/
theorem begin_success_snapshot_witness :
    beginTransaction 0 stIdle 5 [envNormal] =
      some (FdbStatus.Success,
        { handle := { txn := some ⟨5, 0 % UINT64_MOD,
                        (if envNormal.fileStatus ≠ FileStatus.CompactOld then 11
                         else BLK_NOT_FOUND), 4, none⟩,
                      kvs := some KvsType.Root, last_hdr_bid := 11,
                      cur_header_revnum := 4, durability_async := false,
                      busy := false },
          wal := Wal.addTransaction { txns := [], entries := [] } (0 % UINT64_MOD) },
        1) :=
  (begin_success_snapshot 0 stIdle 5 [envNormal] envNormal
    (syncDbHeader handleIdle envNormal) (by decide) (by decide) (by decide)
    (by decide)).1

/-- An environment step observed while a rollback is in progress on the
file: reopen succeeds, `isRollbackOn` reports true, FILE_NORMAL. -/
def envRollback : EnvStep :=
  { reopenStatus := FdbStatus.Success, syncedHdrBid := 11, syncedRevnum := 4
    rollbackOn := true, fileStatus := FileStatus.Normal }

/-- Claim C8: `abortTransaction` never returns `FailByRollback` (its
stabilization loop has no rollback check), as long as the reopen delegate
itself does not report that status; and even with rollback in progress on
every observed step, abort on an active transaction proceeds: it discards
every WAL entry of the transaction, deregisters it, and empties the
transaction slot. -/
theorem abort_never_fail_by_rollback :
    (∀ st env s st2, (∀ x ∈ env, x.reopenStatus ≠ FdbStatus.FailByRollback) →
      abortTransaction st env = some (s, st2) →
      s ≠ FdbStatus.FailByRollback) ∧
    (∀ st env txn e h1, (st : FileState).handle.txn = some txn →
      st.handle.isSubHandle = false → st.handle.busy = false →
      (∀ x ∈ env, x.rollbackOn = true) →
      stabilizeLoop st.handle env = some (LoopExit.stable e, h1) →
      abortTransaction st env =
        some (FdbStatus.Success,
          { handle := { h1 with txn := none }
            wal := (st.wal.discardTxnEntries txn.txn_id).removeTransaction
              txn.txn_id }) ∧
      (∀ p ∈ ((st.wal.discardTxnEntries txn.txn_id).removeTransaction
          txn.txn_id).entries, p.1 ≠ txn.txn_id) ∧
      txn.txn_id ∉ ((st.wal.discardTxnEntries txn.txn_id).removeTransaction
        txn.txn_id).txns) := by
  constructor
  · intro st env s st2 hno heq
    simp only [abortTransaction] at heq
    split at heq
    · simp only [Option.some.injEq, Prod.mk.injEq] at heq
      rw [← heq.1]
      decide
    · split at heq
      · simp only [Option.some.injEq, Prod.mk.injEq] at heq
        rw [← heq.1]
        decide
      · split at heq
        · simp only [Option.some.injEq, Prod.mk.injEq] at heq
          rw [← heq.1]
          decide
        · split at heq
          · exact absurd heq (by simp)
          · rename_i h1 hloop
            simp only [Option.some.injEq, Prod.mk.injEq] at heq
            obtain ⟨x, hx, hs, hne⟩ :=
              stabilizeLoop_err_mem env st.handle h1 _ hloop
            rw [← heq.1, hs]
            exact hno x hx
          · simp only [Option.some.injEq, Prod.mk.injEq] at heq
            rw [← heq.1]
            decide
  · intro st env txn e h1 ht hsub hb _ hloop
    refine ⟨?_, ?_, ?_⟩
    · simp [abortTransaction, ht, hsub, hb, hloop]
    · intro p hp
      simp only [Wal.removeTransaction, Wal.discardTxnEntries] at hp
      have := List.of_mem_filter hp
      simpa using this
    · intro hmem
      simp only [Wal.removeTransaction, Wal.discardTxnEntries] at hmem
      have := List.of_mem_filter hmem
      simp at this

/-- Witness for C8: a concrete abort of the active one-item transaction
with rollback in progress on the file succeeds, leaving no trace of
transaction 7 in the WAL; the never-FailByRollback part applied at the
same run. -/
theorem abort_never_fail_by_rollback_witness :
    abortTransaction stActive [envRollback] =
      some (FdbStatus.Success,
        { handle := { txn := none, kvs := some KvsType.Root, last_hdr_bid := 11
                      cur_header_revnum := 4, durability_async := false
                      busy := false }
          wal := { txns := [], entries := [] } }) ∧
    (FdbStatus.Success : FdbStatus) ≠ FdbStatus.FailByRollback := by
  constructor
  · have h := (abort_never_fail_by_rollback.2 stActive [envRollback] txnOneItem
      envRollback (syncDbHeader handleActive envRollback) (by decide) (by decide)
      (by decide) (by decide) (by decide)).1
    exact h.trans (by decide)
  · have h := abort_never_fail_by_rollback.1 stActive [envRollback]
      FdbStatus.Success
      { handle := { txn := none, kvs := some KvsType.Root, last_hdr_bid := 11
                    cur_header_revnum := 4, durability_async := false
                    busy := false }
        wal := { txns := [], entries := [] } } (by decide) (by decide)
    exact h

/-- An iteration of the begin stabilization loop retries (goes around
again) exactly when reopen succeeds, no rollback is in progress, and the
file status is still REMOVED_PENDING. -/
def beginRetries (e : EnvStep) : Prop :=
  e.reopenStatus = FdbStatus.Success ∧ e.rollbackOn = false ∧
  e.fileStatus = FileStatus.RemovedPending

instance (e : EnvStep) : Decidable (beginRetries e) := by
  unfold beginRetries
  infer_instance

/-- The begin loop exits with `FailByRollback` exactly when the first
iteration that does not retry observes a successful reopen together with
rollback in progress — provided the reopen delegate itself never reports
`FailByRollback`. -/
theorem beginLoop_fail_by_rollback_iff (env : List EnvStep) :
    ∀ h : FdbKvsHandle,
    (∀ x ∈ env, x.reopenStatus ≠ FdbStatus.FailByRollback) →
    ((∃ h1, beginLoop h env = some (LoopExit.err FdbStatus.FailByRollback, h1)) ↔
      ∃ pre e rest, env = pre ++ e :: rest ∧ (∀ x ∈ pre, beginRetries x) ∧
        e.reopenStatus = FdbStatus.Success ∧ e.rollbackOn = true) := by
  induction env with
  | nil =>
    intro h _
    constructor
    · intro ⟨h1, heq⟩
      simp [beginLoop] at heq
    · intro ⟨pre, e, rest, heqenv, _, _, _⟩
      exact absurd heqenv.symm (List.append_ne_nil_of_right_ne_nil pre
        (List.cons_ne_nil e rest))
  | cons e rest ih =>
    intro h hno
    constructor
    · intro ⟨h1, heq⟩
      simp only [beginLoop] at heq
      split at heq
      · rename_i hre
        simp only [Option.some.injEq, Prod.mk.injEq, LoopExit.err.injEq] at heq
        exact absurd heq.1 (hno e (List.mem_cons_self e rest))
      · rename_i hre
        rw [not_not] at hre
        split at heq
        · rename_i hrb
          exact ⟨[], e, rest, rfl, by simp, hre, hrb⟩
        · rename_i hrb
          rw [Bool.not_eq_true] at hrb
          split at heq
          · rename_i hfs
            obtain ⟨pre, e2, rest2, heqenv, hpre, h2, h3⟩ :=
              (ih (syncDbHeader h e)
                (fun x hx => hno x (List.mem_cons_of_mem e hx))).mp ⟨h1, heq⟩
            refine ⟨e :: pre, e2, rest2, by rw [heqenv, List.cons_append], ?_, h2, h3⟩
            intro x hx
            rcases List.mem_cons.mp hx with hx | hx
            · rw [hx]
              exact ⟨hre, hrb, by assumption⟩
            · exact hpre x hx
          · simp at heq
    · intro ⟨pre, e2, rest2, heqenv, hpre, h2, h3⟩
      cases pre with
      | nil =>
        simp only [List.nil_append, List.cons.injEq] at heqenv
        rw [heqenv.1]
        refine ⟨syncDbHeader h e2, ?_⟩
        simp [beginLoop, h2, h3]
      | cons p ps =>
        simp only [List.cons_append, List.cons.injEq] at heqenv
        obtain ⟨hep, hrest⟩ := heqenv
        have hpe : beginRetries e := by
          rw [hep]
          exact hpre p (List.mem_cons_self p ps)
        obtain ⟨hre, hrb, hfs⟩ := hpe
        obtain ⟨h1, hloop⟩ := (ih (syncDbHeader h e)
          (fun x hx => hno x (List.mem_cons_of_mem e hx))).mpr
          ⟨ps, e2, rest2, hrest, fun x hx => hpre x (List.mem_cons_of_mem p hx),
            h2, h3⟩
        refine ⟨h1, ?_⟩
        simp [beginLoop, hre, hrb, hfs, hloop]

/-- Claim C7: once the preconditions pass, `beginTransaction` returns
`FailByRollback` exactly when the stabilized check — the first loop
iteration that does not retry, performed after the handle's header is
synchronized under the file mutex — observes rollback in progress (with
reopen itself succeeding); in every other case some other status results.
The proviso is that the reopen delegate never itself reports
`FailByRollback`. -/
theorem begin_fail_by_rollback_iff (tid : Nat) (st : FileState) (iso : Nat)
    (env : List EnvStep)
    (hno : ∀ x ∈ env, x.reopenStatus ≠ FdbStatus.FailByRollback)
    (ht : st.handle.txn = none) (hsub : st.handle.isSubHandle = false)
    (hb : st.handle.busy = false) :
    ((beginTransaction tid st iso env).map (fun r => r.1) =
        some FdbStatus.FailByRollback) ↔
      ∃ pre e rest, env = pre ++ e :: rest ∧ (∀ x ∈ pre, beginRetries x) ∧
        e.reopenStatus = FdbStatus.Success ∧ e.rollbackOn = true := by
  rw [← beginLoop_fail_by_rollback_iff env st.handle hno]
  constructor
  · intro hres
    simp only [beginTransaction, ht, hsub, hb] at hres
    simp only [Option.isSome_none, Bool.false_eq_true, if_false] at hres
    cases hloop : beginLoop st.handle env with
    | none => rw [hloop] at hres; simp at hres
    | some r =>
      obtain ⟨ex, h1⟩ := r
      cases ex with
      | err s =>
        rw [hloop] at hres
        simp at hres
        exact ⟨h1, by rw [hres]⟩
      | stable e =>
        rw [hloop] at hres
        simp at hres
  · intro ⟨h1, hloop⟩
    simp [beginTransaction, ht, hsub, hb, hloop]

/-- Witness for C7: with a quiescent handle and an environment whose
single step reports rollback in progress, both sides of the equivalence
hold — `beginTransaction` returns `FailByRollback`. -/
theorem begin_fail_by_rollback_iff_witness :
    (beginTransaction 0 stIdle 0 [envRollback]).map (fun r => r.1) =
      some FdbStatus.FailByRollback :=
  (begin_fail_by_rollback_iff 0 stIdle 0 [envRollback] (by decide) (by decide)
    (by decide) (by decide)).mpr
    ⟨[], envRollback, [], rfl, by simp, by decide, by decide⟩

/-- One `beginTransaction` call of a process-wide trace: the per-file state
it runs against, the isolation level, and the environment of its
stabilization loop.  Distinct calls may target distinct files/handles; the
`transaction_id` counter is the only state shared between them. -/
structure BeginCall where
  fileSt : FileState
  isolation : Nat
  env : List EnvStep

/-- The id stored in a file state's active transaction (0 if none; only
read on states just produced by a successful begin). -/
def assignedId (st : FileState) : Nat :=
  match st.handle.txn with
  | some t => t.txn_id
  | none => 0

/-- Run a sequence of `beginTransaction` calls, threading the process-wide
`transaction_id` counter through them; returns the final counter and the
ids assigned by the successful calls, in order.  A call whose stabilization
loop never terminates ends the trace. -/
def runBegins (tid : Nat) : List BeginCall → Nat × List Nat
  | [] => (tid, [])
  | c :: rest =>
    match beginTransaction tid c.fileSt c.isolation c.env with
    | none => (tid, [])
    | some (s, st2, tid2) =>
      if s = FdbStatus.Success then
        ((runBegins tid2 rest).1, assignedId st2 :: (runBegins tid2 rest).2)
      else
        runBegins tid2 rest

/-- An error exit of the begin stabilization loop never carries `Success`. -/
theorem beginLoop_err_ne_success (env : List EnvStep) :
    ∀ h h1 s, beginLoop h env = some (LoopExit.err s, h1) →
    s ≠ FdbStatus.Success := by
  induction env with
  | nil => intro h h1 s heq; simp [beginLoop] at heq
  | cons e rest ih =>
    intro h h1 s heq
    simp only [beginLoop] at heq
    split at heq
    · rename_i hre
      simp only [Option.some.injEq, Prod.mk.injEq, LoopExit.err.injEq] at heq
      exact heq.1 ▸ hre
    · split at heq
      · simp only [Option.some.injEq, Prod.mk.injEq, LoopExit.err.injEq] at heq
        rw [← heq.1]
        decide
      · split at heq
        · exact ih (syncDbHeader h e) h1 s heq
        · simp at heq

/-- A successful `beginTransaction` advances the global counter by exactly
one and stores the old counter value (reduced mod 2^64) as the new
transaction's id. -/
theorem begin_success_shape (tid : Nat) (st : FileState) (iso : Nat)
    (env : List EnvStep) (st2 : FileState) (tid2 : Nat)
    (heq : beginTransaction tid st iso env = some (FdbStatus.Success, st2, tid2)) :
    tid2 = tid + 1 ∧ assignedId st2 = tid % UINT64_MOD := by
  simp only [beginTransaction] at heq
  split at heq
  · simp at heq
  · split at heq
    · simp at heq
    · split at heq
      · simp at heq
      · split at heq
        · simp at heq
        · rename_i h1 hloop
          simp only [Option.some.injEq, Prod.mk.injEq] at heq
          exact absurd heq.1 (beginLoop_err_ne_success env st.handle h1 _ hloop)
        · rename_i e h1 hloop
          simp only [Option.some.injEq, Prod.mk.injEq] at heq
          refine ⟨heq.2.2.symm, ?_⟩
          rw [← heq.2.1]
          simp [assignedId]

/-- A non-successful `beginTransaction` leaves the global counter
unchanged. -/
theorem begin_fail_same_tid (tid : Nat) (st : FileState) (iso : Nat)
    (env : List EnvStep) (s : FdbStatus) (st2 : FileState) (tid2 : Nat)
    (heq : beginTransaction tid st iso env = some (s, st2, tid2))
    (hs : s ≠ FdbStatus.Success) : tid2 = tid := by
  simp only [beginTransaction] at heq
  split at heq
  · simp only [Option.some.injEq, Prod.mk.injEq] at heq
    exact heq.2.2.symm
  · split at heq
    · simp only [Option.some.injEq, Prod.mk.injEq] at heq
      exact heq.2.2.symm
    · split at heq
      · simp only [Option.some.injEq, Prod.mk.injEq] at heq
        exact heq.2.2.symm
      · split at heq
        · simp at heq
        · simp only [Option.some.injEq, Prod.mk.injEq] at heq
          exact heq.2.2.symm
        · simp only [Option.some.injEq, Prod.mk.injEq] at heq
          exact absurd heq.1.symm hs

/-- The global counter never decreases along a trace of begin calls. -/
theorem runBegins_le (calls : List BeginCall) :
    ∀ tid, tid ≤ (runBegins tid calls).1 := by
  induction calls with
  | nil => intro tid; simp [runBegins]
  | cons c rest ih =>
    intro tid
    simp only [runBegins]
    cases hbt : beginTransaction tid c.fileSt c.isolation c.env with
    | none => simp
    | some v =>
      obtain ⟨s, st2, tid2⟩ := v
      dsimp only
      by_cases hs : s = FdbStatus.Success
      · subst hs
        rw [if_pos rfl]
        obtain ⟨htid2, _⟩ := begin_success_shape tid c.fileSt c.isolation c.env
          st2 tid2 hbt
        rw [htid2]
        exact Nat.le_trans (Nat.le_succ tid) (ih (tid + 1))
      · rw [if_neg hs]
        rw [begin_fail_same_tid tid c.fileSt c.isolation c.env s st2 tid2 hbt hs]
        exact ih tid

/-- Invariant for C5: along any trace whose final counter stays within
2^64, the assigned ids are pairwise strictly increasing and bounded below
by the starting counter. -/
theorem runBegins_ids_aux (calls : List BeginCall) : ∀ tid t ids,
    runBegins tid calls = (t, ids) → t ≤ UINT64_MOD →
    List.Pairwise (· < ·) ids ∧ ∀ i ∈ ids, tid ≤ i := by
  induction calls with
  | nil =>
    intro tid t ids heq _
    simp only [runBegins, Prod.mk.injEq] at heq
    rw [← heq.2]
    exact ⟨List.Pairwise.nil, by simp⟩
  | cons c rest ih =>
    intro tid t ids heq hle
    simp only [runBegins] at heq
    cases hbt : beginTransaction tid c.fileSt c.isolation c.env with
    | none =>
      rw [hbt] at heq
      simp only [Prod.mk.injEq] at heq
      rw [← heq.2]
      exact ⟨List.Pairwise.nil, by simp⟩
    | some v =>
      obtain ⟨s, st2, tid2⟩ := v
      rw [hbt] at heq
      dsimp only at heq
      by_cases hs : s = FdbStatus.Success
      · subst hs
        rw [if_pos rfl] at heq
        obtain ⟨htid2, hid⟩ := begin_success_shape tid c.fileSt c.isolation c.env
          st2 tid2 hbt
        subst htid2
        simp only [Prod.mk.injEq] at heq
        obtain ⟨ht', hids⟩ := heq
        have hmono := runBegins_le rest (tid + 1)
        have htlt : tid < UINT64_MOD := by
          have h1 : tid + 1 ≤ t := by rw [← ht']; exact hmono
          omega
        have hidtid : assignedId st2 = tid := by
          rw [hid, Nat.mod_eq_of_lt htlt]
        have hrec := ih (tid + 1) (runBegins (tid + 1) rest).1
          (runBegins (tid + 1) rest).2 rfl (by rw [ht']; exact hle)
        rw [← hids]
        constructor
        · refine List.Pairwise.cons ?_ hrec.1
          intro y hy
          have := hrec.2 y hy
          rw [hidtid]
          omega
        · intro i hi
          rcases List.mem_cons.mp hi with hi | hi
          · rw [hi, hidtid]
          · have := hrec.2 i hi
            omega
      · rw [if_neg hs] at heq
        rw [begin_fail_same_tid tid c.fileSt c.isolation c.env s st2 tid2 hbt hs]
          at heq
        exact ih tid t ids heq hle

/-- Claim C5: across any process-wide sequence of begin calls starting
from the counter's initial value 0 — on any handles — the ids assigned by
the successful calls are strictly increasing (each new id exceeds every id
assigned before it), provided the number of ids ever assigned stays within
2^64 (the spec places 64-bit counter overflow out of scope). -/
theorem txn_ids_strictly_increasing (calls : List BeginCall) (t : Nat)
    (ids : List Nat) (heq : runBegins 0 calls = (t, ids))
    (hle : t ≤ UINT64_MOD) : List.Pairwise (· < ·) ids :=
  (runBegins_ids_aux calls 0 t ids heq hle).1

/-- A begin call on the idle root handle in a quiescent environment. -/
def beginCallIdle : BeginCall := ⟨stIdle, 0, [envNormal]⟩

/-- Witness for C5: two successful begins assign ids 0 and 1, pairwise
increasing. -/
theorem txn_ids_strictly_increasing_witness :
    List.Pairwise (· < ·) (runBegins 0 [beginCallIdle, beginCallIdle]).2 :=
  txn_ids_strictly_increasing [beginCallIdle, beginCallIdle]
    (runBegins 0 [beginCallIdle, beginCallIdle]).1
    (runBegins 0 [beginCallIdle, beginCallIdle]).2 rfl (by decide)

end ForestDb
